import Mathlib

/-! Verification of the client-side view router and render pipeline of the
VetusAI search and chat front end (search.js and static/chat.js).

The JavaScript is shallowly embedded: JS strings are Lean Strings, the JS
numbers that occur as scores are rationals, absent object fields are
Option values, truthiness tests on string-valued fields are explicit, and
the browser-scoped localStorage is a String-indexed partial map. Network
calls are parameterised by outcome oracles, and the random minting of
staging-record ids by an id supply. -/

namespace VetusAI

/-! ## JS string primitives -/

/-- Whitespace characters recognised here: the ASCII part of the JS
whitespace class used by trim and by the split regex (the Unicode space
code points are never exercised by this code). -/
def isJsWs (c : Char) : Bool :=
  c = ' ' || c = '\t' || c = '\n' || c = '\r' || c = '\x0b' || c = '\x0c'

/-- Characters of a string with leading and trailing whitespace removed. -/
def trimList (cs : List Char) : List Char :=
  ((cs.dropWhile isJsWs).reverse.dropWhile isJsWs).reverse

/-- JS String.prototype.trim. -/
def jsTrim (s : String) : String := String.mk (trimList s.data)

/-- Tokeniser behind split on the one-or-more-whitespace regex: maximal
runs of non-whitespace characters; the first argument accumulates the
current run in reverse. -/
def splitWsGo : List Char → List Char → List String
  | cur, [] => if cur = [] then [] else [String.mk cur.reverse]
  | cur, c :: cs =>
    if isJsWs c then
      if cur = [] then splitWsGo [] cs else String.mk cur.reverse :: splitWsGo [] cs
    else splitWsGo (c :: cur) cs

/-- JS split on the one-or-more-whitespace regex, restricted to trimmed
inputs (the only way the code calls it): the empty string yields a single
empty token, any other trimmed string yields its whitespace-separated
words. -/
def jsSplitWs (s : String) : List String :=
  if s.data = [] then [""] else splitWsGo [] s.data

/-- search.js cutToWords: trim, split on whitespace, keep the first
maxWords tokens joined by single spaces, and append an ellipsis when the
token count exceeds maxWords. The source declares a default maxWords of
100 that no caller uses. -/
def cutToWords (text : String) (maxWords : Nat) : String :=
  let words := jsSplitWs (jsTrim text)
  String.intercalate " " (words.take maxWords) ++
    (if words.length > maxWords then "…" else "")

/-- One global single-character replacement. -/
def replaceChar (rep : String) (c : Char) (cs : List Char) : List Char :=
  cs.flatMap (fun x => if x = c then rep.data else [x])

/-- search.js and chat.js safe: three sequential global replacements,
ampersand first, then the angle brackets. -/
def safe (s : String) : String :=
  String.mk (replaceChar "&gt;" '>' (replaceChar "&lt;" '<'
    (replaceChar "&amp;" '&' s.data)))

/-- A string-valued JS field is truthy exactly when it is present and
nonempty; the truthy value is returned. -/
def truthyStr : Option String → Option String
  | some s => if s = "" then none else some s
  | none => none

def truthyB (o : Option String) : Bool := (truthyStr o).isSome

/-- JS a or-else b over string-valued fields: b whenever a is falsy,
whether or not b itself is truthy. -/
def jsOr (a b : Option String) : Option String :=
  match truthyStr a with
  | some s => some s
  | none => b

/-- JS a or-else d with a plain string default. -/
def jsOrStr (a : Option String) (d : String) : String :=
  match truthyStr a with
  | some s => s
  | none => d

/-- String(x) for a possibly-undefined string value: undefined prints as
the word undefined. -/
def jsStringOfUndef : Option String → String
  | some s => s
  | none => "undefined"

def hexDigitChar (n : Nat) : Char :=
  if n < 10 then Char.ofNat (48 + n) else Char.ofNat (55 + n)

def percentByte (b : Nat) : String :=
  String.mk ['%', hexDigitChar (b / 16), hexDigitChar (b % 16)]

def utf8Encode (c : Char) : List Nat :=
  let n := c.toNat
  if n < 128 then [n]
  else if n < 2048 then [192 + n / 64, 128 + n % 64]
  else if n < 65536 then [224 + n / 4096, 128 + n / 64 % 64, 128 + n % 64]
  else [240 + n / 262144, 128 + n / 4096 % 64, 128 + n / 64 % 64, 128 + n % 64]

/-- The characters encodeURIComponent leaves as-is. -/
def isUriUnreserved (c : Char) : Bool :=
  c.isAlpha || c.isDigit || ['-', '_', '.', '!', '~', '*', '\'', '(', ')'].contains c

/-- JS encodeURIComponent: unreserved characters pass through, everything
else becomes the uppercase percent-encoding of its UTF-8 bytes. -/
def encodeURIComponent (s : String) : String :=
  String.join (s.data.map fun c =>
    if isUriUnreserved c then String.mk [c]
    else String.join ((utf8Encode c).map percentByte))

/-- JS Math.round on a finite number: the floor of x + 1/2 (halves round
toward positive infinity). NaN and the infinities are outside the
rational model; no score in scope can produce them. -/
def jsMathRound (x : ℚ) : ℤ := ⌊x + 1 / 2⌋

/-! ## HTTP/JSON client wrapper -/

/-- A fetch outcome as fetchJSON observes it: the ok flag and status, the
body text (none when reading the body itself fails and the attached catch
replaces it) and the value the json() call would yield. -/
structure JsResponse (α : Type) where
  ok : Bool
  status : Nat
  textBody : Option String
  jsonBody : α

/-- search.js lines 11-18 and chat.js lines 40-47 fetchJSON: on a non-ok
response, throw the body text when nonempty (a body read failure is
caught and treated as the empty string), otherwise a generic status
message; on an ok response, return the parsed JSON. -/
def fetchJSON {α : Type} (res : JsResponse α) : Except String α :=
  if !res.ok then
    let t := res.textBody.getD ""
    Except.error (if t = "" then "Request failed: " ++ toString res.status else t)
  else Except.ok res.jsonBody

/-! ## Data model: hits and the staging store -/

/-- A search or RAG hit as the renderers consume it. String-valued fields
are none when absent; score is none unless the field holds a number; page
carries its already-stringified form (only String(page) and null checks
touch it); emails is none unless the field is an array, and only its
length is consumed. -/
structure Hit where
  thread_id : Option String := none
  subject : Option String := none
  topic : Option String := none
  score : Option ℚ := none
  emails_count : Option Int := none
  emails : Option (List Unit) := none
  doc_path : Option String := none
  doc_name : Option String := none
  page : Option String := none
  paragraph_index : Option Int := none
  paragraph : Option String := none
  deriving DecidableEq

/-- A JSON field that should be an array: Array.isArray rejects both an
absent field and a non-array value. -/
inductive JsArr (α : Type) where
  | absent
  | notArray
  | arr (xs : List α)

/-- Array.isArray(data.results) ? data.results : []. -/
def jsHits : JsArr Hit → List Hit
  | .arr xs => xs
  | _ => []

/-- The staging record written for a document hit. -/
structure DocPayload where
  doc_name : String
  source : Option String
  page : Option String
  paragraph_index : Option Int
  paragraph : String
  deriving DecidableEq

/-- The browser-scoped localStorage, keyed by string. The JSON round trip
through stringify and parse is identity on these records. -/
def Store : Type := String → Option DocPayload

def storeSet (s : Store) (key : String) (v : DocPayload) : Store :=
  fun k => if k = key then some v else s k

/-- try setItem catch-ignore: when the write throws (ok false) the
exception is swallowed and the store is unchanged. -/
def trySetItem (ok : Bool) (s : Store) (key : String) (v : DocPayload) : Store :=
  if ok then storeSet s key v else s

/-- path split on slash-or-backslash, keeping empty segments, as the
split-pop idiom produces; the accumulator holds the current segment in
reverse. -/
def splitSlashesGo : List Char → List Char → List String
  | cur, [] => [String.mk cur.reverse]
  | cur, c :: cs =>
    if c = '/' || c = '\\' then String.mk cur.reverse :: splitSlashesGo [] cs
    else splitSlashesGo (c :: cur) cs

/-- split(...).pop(): the last segment (the segment list is never empty). -/
def lastPathSegment (s : String) : String :=
  (splitSlashesGo [] s.data).getLastD ""

/-! ## Results renderer -/

/-- The pieces of the li.innerHTML template for a thread hit: the title
link, the id pill, the optional score and email-count pill texts, the
topic snippet. -/
structure ThreadCard where
  href : String
  titleText : String
  idPill : String
  scorePill : Option String
  emailsPill : Option String
  snippet : String
  deriving DecidableEq

/-- The pieces of the li.innerHTML template for a document hit. -/
structure DocCard where
  href : String
  titleText : String
  scorePill : Option String
  pagePill : Option String
  snippet : String
  pathLine : String
  deriving DecidableEq

inductive ResultCard where
  | thread (c : ThreadCard)
  | doc (c : DocCard)
  deriving DecidableEq

/-- r.topic when truthy, else the placeholder topic. -/
def topicLineOf (r : Hit) : String := jsOrStr r.topic "(No Topic)"

/-- The score pill text rendered when the score field is a number. -/
def scorePillText (x : ℚ) : String := "score: " ++ toString (jsMathRound x) ++ "%"

/-- The li built for a thread hit (search.js lines 96-121): link to the
thread view on the same origin and path, escaped subject with a
synthesized fallback, id pill, optional score and email-count pills, and
the topic snippet cut to 60 words. -/
def threadCardOf (origin pathname : String) (r : Hit) (tid : String) : ThreadCard :=
  let subject := jsOrStr r.subject ("Thread " ++ tid)
  let emailsCount : Option Int :=
    match r.emails_count with
    | some n => some n
    | none =>
      match r.emails with
      | some l => some (l.length : Int)
      | none => none
  { href := origin ++ pathname ++ "?mode=thread&id=" ++ encodeURIComponent tid
    titleText := safe subject
    idPill := safe tid
    scorePill := r.score.map scorePillText
    emailsPill := emailsCount.map fun n =>
      toString n ++ " email" ++ (if n = 1 then "" else "s")
    snippet := safe (cutToWords (topicLineOf r) 60) }

/-- The document branch of the results loop (search.js lines 122-153):
title from doc_name or the path tail, staging record written under the
minted id (a throwing setItem is swallowed by the empty catch), link to
the detail page carrying only the minted id, paragraph snippet cut to 80
words. Returns the card and the updated store. -/
def resultsDocBranch (r : Hit) (dp docId : String) (store : Store) (writeOk : Bool) :
    DocCard × Store :=
  let title := jsOrStr r.doc_name (lastPathSegment dp)
  let payload : DocPayload :=
    { doc_name := title
      source := r.doc_path
      page := r.page
      paragraph_index := r.paragraph_index
      paragraph := (r.paragraph).getD "" }
  let store2 := trySetItem writeOk store ("docview:" ++ docId) payload
  ({ href := "/doc?id=" ++ encodeURIComponent docId
     titleText := safe title
     scorePill := r.score.map scorePillText
     pagePill := r.page.map fun p => "page: " ++ p
     snippet := safe (cutToWords ((r.paragraph).getD "") 80)
     pathLine := safe dp }, store2)

/-- Ambient inputs of showResults: the location pieces used in thread
links, the supply of minted staging ids, and whether the k-th staging
write succeeds. -/
structure ResultsEnv where
  origin : String
  pathname : String
  mint : Nat → String
  writeOk : Nat → Bool

/-- The per-hit loop of showResults (search.js lines 92-155). For a hit
with a truthy thread_id the source creates the li and assigns its
innerHTML, but the only listEl.appendChild(li) sits inside the doc_path
branch, so the thread li is dropped; a hit with truthy doc_path appends
its card; a hit with neither does nothing. -/
def showResultsGo (env : ResultsEnv) :
    List Hit → Nat → List ResultCard → Store → List ResultCard × Store
  | [], _, cards, store => (cards, store)
  | r :: rest, k, cards, store =>
    match truthyStr r.thread_id with
    | some tid =>
      let _li := ResultCard.thread (threadCardOf env.origin env.pathname r tid)
      showResultsGo env rest k cards store
    | none =>
      match truthyStr r.doc_path with
      | some dp =>
        let step := resultsDocBranch r dp (env.mint k) store (env.writeOk k)
        showResultsGo env rest (k + 1) (cards ++ [ResultCard.doc step.1]) step.2
      | none => showResultsGo env rest k cards store

/-- The summary line of showResults (search.js lines 86-90): the source
tests the truthiness of hits.length, so zero selects the no-results text
and the plural s is added exactly above one. -/
def resultsSummaryText (hits : List Hit) : String :=
  if hits.length = 0 then "No matching results found."
  else toString hits.length ++ " matching result" ++
    (if hits.length > 1 then "s" else "")

/-- The DOM outcome of the showResults success path. -/
structure ResultsView where
  summary : String
  cards : List ResultCard
  store : Store

/-- The success path of showResults once the /lookup response has arrived
(search.js lines 85-156). -/
def showResultsRender (env : ResultsEnv) (store : Store) (results : JsArr Hit) :
    ResultsView :=
  let hits := jsHits results
  let step := showResultsGo env hits 0 [] store
  { summary := resultsSummaryText hits, cards := step.1, store := step.2 }

/-! ## Thread renderer: the per-email loop -/

/-- The oracle for one email fetch: how long it takes and whether it
succeeds. -/
structure EmailFetch where
  latency : Nat
  ok : Bool
  deriving DecidableEq

inductive EmailEvent where
  | placeholderAppended (eid : String)
  | contentRendered (eid : String) (ok : Bool)
  deriving DecidableEq

structure TimedEvent where
  time : Nat
  ev : EmailEvent
  deriving DecidableEq

/-- The email loop of showThread (search.js lines 208-257) with fetch
latencies made explicit. Each iteration appends the collapsed placeholder
li and then awaits the email fetch before the loop continues, so the
clock advances by that latency before the next placeholder is appended; a
successful fetch renders the email content, a failed one renders the
failure text in the same item. -/
def showThreadEmailLoop (fetch : String → EmailFetch) :
    List String → Nat → List TimedEvent
  | [], _ => []
  | eid :: rest, now =>
    { time := now, ev := EmailEvent.placeholderAppended eid } ::
    { time := now + (fetch eid).latency,
      ev := EmailEvent.contentRendered eid (fetch eid).ok } ::
    showThreadEmailLoop fetch rest (now + (fetch eid).latency)

/-- The time at which an event first occurs in a trace. -/
def eventTime (evs : List TimedEvent) (e : EmailEvent) : Option Nat :=
  (evs.find? fun te => decide (te.ev = e)).map fun te => te.time

/-! ## Chat orchestrator -/

/-- chat.js line 1: the fixed process-wide context mode. -/
def CONTEXT_MODE : String := "summary"

/-- chat.js threadUrl; String coercion inside encodeURIComponent turns an
undefined thread id into the word undefined. -/
def threadUrl (origin : String) (threadId : Option String) : String :=
  origin ++ "/search?mode=thread&id=" ++ encodeURIComponent (jsStringOfUndef threadId)

/-- chat.js buildRewritePrompt: the six template lines joined by
newlines. -/
def buildRewritePrompt (query : String) : String :=
  String.intercalate "\n"
    ["USER QUESTION:", query, "", "INSTRUCTIONS:",
     "- Rewrite the USER QUESTION above into a single, concise embedding search query.",
     "- Drop filler and verbose statements. Output only the query, no quotes."]

/-- The three quote characters the wrapper-stripping regex accepts. -/
def isWrapperQuote (c : Char) : Bool :=
  c = '\'' || c = '"' || c = Char.ofNat 96

/-- chat.js stripWrapperQuotes: the regex anchors one quote character at
each end with a dot-star between, and the dot does not match line
terminators, so a match needs length at least two, quote characters at
both ends, and no newline or carriage return strictly inside. -/
def stripWrapperQuotes (s : String) : String :=
  let cs := s.data
  if 2 ≤ cs.length && isWrapperQuote (cs.headD ' ') && isWrapperQuote (cs.getLastD ' ')
      && ((cs.drop 1).dropLast.all fun c => !(c = '\n' || c = '\r')) then
    String.mk ((cs.drop 1).dropLast)
  else s

/-- One pill of the chat sources list; the suffix fields carry the
optional score and page or email-count fragments of the template. -/
inductive SourcePill where
  | doc (href label scoreSuffix pageSuffix : String)
  | thread (href label scoreSuffix emailsSuffix : String)
  deriving DecidableEq

def SourcePill.isDoc : SourcePill → Bool
  | .doc _ _ _ _ => true
  | _ => false

def SourcePill.href : SourcePill → String
  | .doc h _ _ _ => h
  | .thread h _ _ _ => h

/-- The parenthesised score fragment of a chat pill. -/
def scoreSuffixOf (score : Option ℚ) : String :=
  match score with
  | some x => " (" ++ toString (jsMathRound x) ++ "%)"
  | none => ""

/-- The document branch of the chat sources map (chat.js lines 135-150):
label from doc_name, the doc_path tail, or a generic fallback; staging
record written under the minted id (a throwing setItem is swallowed);
link to /doc carrying the raw minted id (unencoded here, unlike the
results renderer). -/
def chatDocBranch (s : Hit) (docId : String) (store : Store) (writeOk : Bool) :
    SourcePill × Store :=
  let docName := jsOrStr s.doc_name
    (match truthyStr s.doc_path with
     | some dp => lastPathSegment dp
     | none => "Document")
  let payload : DocPayload :=
    { doc_name := docName
      source := s.doc_path
      page := s.page
      paragraph_index := s.paragraph_index
      paragraph := (s.paragraph).getD "" }
  let store2 := trySetItem writeOk store ("docview:" ++ docId) payload
  (SourcePill.doc ("/doc?id=" ++ docId) (safe docName) (scoreSuffixOf s.score)
    (match s.page with
     | some p => " • page " ++ p
     | none => ""), store2)

/-- The thread branch of the chat sources map (chat.js lines 152-158).
When every candidate label field is falsy the or-chain yields a falsy
value and the default parameter of safe turns it into the empty string. -/
def chatThreadPill (origin : String) (s : Hit) : SourcePill :=
  SourcePill.thread (threadUrl origin s.thread_id)
    (safe ((jsOr s.subject (jsOr s.topic s.thread_id)).getD ""))
    (scoreSuffixOf s.score)
    (match s.emails_count with
     | some n => " • " ++ toString n ++ " email" ++ (if n = 1 then "" else "s")
     | none => "")

/-- The sources.map of chat.js lines 134-160: the document branch is
taken when thread_id is falsy and doc_path or paragraph is truthy; every
other hit, including one with no discriminant field at all, takes the
thread branch. Every hit yields a pill. -/
def chatSourcesGo (origin : String) (mint : Nat → String) (writeOk : Nat → Bool) :
    List Hit → Nat → List SourcePill → Store → List SourcePill × Store
  | [], _, pills, store => (pills, store)
  | s :: rest, k, pills, store =>
    if !truthyB s.thread_id && (truthyB s.doc_path || truthyB s.paragraph) then
      let step := chatDocBranch s (mint k) store (writeOk k)
      chatSourcesGo origin mint writeOk rest (k + 1) (pills ++ [step.1]) step.2
    else
      chatSourcesGo origin mint writeOk rest k (pills ++ [chatThreadPill origin s]) store

structure AskRequest where
  user_input : String
  model_name : String
  use_chat : Bool
  deriving DecidableEq

structure RagRequest where
  user_input : String
  query : String
  context_mode : String
  deriving DecidableEq

structure RagResponse where
  answer : Option String
  used_query : Option String
  sources : Option (List Hit)
  deriving DecidableEq

/-- The terminal content of the assistant bubble for one submission. -/
inductive ChatFinal where
  | answered (answerText : String) (sources : List Hit)
  | errored (message : String)
  deriving DecidableEq

/-- The observable effects of one chat form submission. -/
structure ChatSubmitOutcome where
  userBubble : Option String
  inputCleared : Bool
  rewriteRequest : Option AskRequest
  metaLine : Option String
  ragRequest : Option RagRequest
  final : Option ChatFinal
  deriving DecidableEq

/-- The chat form submit handler (chat.js lines 80-170) as a function of
the raw input value, the phase-1 /ask outcome (none: the call failed;
some a: it succeeded with answer field a) and the phase-2 /ask-with-rag
outcome. A blank input returns before any DOM or network effect, leaving
the field unchanged. The phase-1 catch replaces a failed call with a
synthetic response built from the input and surfaces nothing; the
resolved query is the trimmed, wrapper-quote-stripped answer, falling
back to the input when that is empty; the outer catch renders the
apologetic error bubble. -/
def chatSubmit (inputValue : String) (rewriteOutcome : Option (Option String))
    (ragOutcome : Except String RagResponse) : ChatSubmitOutcome :=
  let val := jsTrim inputValue
  if val = "" then
    { userBubble := none, inputCleared := false, rewriteRequest := none,
      metaLine := none, ragRequest := none, final := none }
  else
    let answer : Option String :=
      match rewriteOutcome with
      | none => some val
      | some a => a
    let stripped := stripWrapperQuotes (jsTrim (answer.getD ""))
    let used := if stripped = "" then val else stripped
    { userBubble := some (safe val)
      inputCleared := true
      rewriteRequest := some
        { user_input := buildRewritePrompt val
          model_name := "deepseek-r1-12k:8b"
          use_chat := false }
      metaLine := some ("Vetus Assistant • Query:<code>\n" ++ safe used ++ "</code>")
      ragRequest := some { user_input := val, query := used, context_mode := CONTEXT_MODE }
      final := some (match ragOutcome with
        | Except.ok resp =>
          ChatFinal.answered (jsTrim (resp.answer.getD "")) ((resp.sources).getD [])
        | Except.error e => ChatFinal.errored ("Sorry, I hit an error: " ++ safe e)) }

/-! ## Home and results search forms -/

/-- The home form submit handler (search.js lines 268-273): some q means
gotoResults q runs (a history push to the results URL and a lookup
render); none means the handler returned before any of that. -/
def homeFormSubmit (value : String) : Option String :=
  let q := jsTrim value
  if q = "" then none else some q

/-- The results form submit handler (search.js lines 277-282), identical
in behaviour to the home form. -/
def resultsFormSubmit (value : String) : Option String :=
  let q := jsTrim value
  if q = "" then none else some q

/-! ## Spec-side definitions and concrete fixtures -/

/-- Modelled from the spec: the sequence of whitespace-separated words of
a text, used to state the word-count truncation property of cutToWords. -/
def wordsOfText (text : String) : List String := splitWsGo [] text.data

def emptyStore : Store := fun _ => none

/-- A concrete environment for closed evaluations. -/
def sampleEnv : ResultsEnv :=
  { origin := "http://localhost", pathname := "/search",
    mint := fun _ => "doc-0", writeOk := fun _ => true }

/-- The thread hit of the spec example: subject, thread id T1,
score 87.6. -/
def budgetThreadHit : Hit :=
  { thread_id := some "T1", subject := some "Re: budget", score := some (876 / 10) }

/-- An email-fetch oracle where every fetch resolves instantly. -/
def instantFetch : String → EmailFetch := fun _ => { latency := 0, ok := true }

/-- An email-fetch oracle where the first email is slow and every other
email instant. -/
def slowFirstFetch : String → EmailFetch :=
  fun eid => if eid = "e1" then { latency := 5, ok := true }
             else { latency := 0, ok := true }

/-! ## Helper lemmas -/

theorem splitWsGo_all_ws (suffix : List Char) (h : ∀ c ∈ suffix, isJsWs c = true) :
    ∀ cur, splitWsGo cur suffix = if cur = [] then [] else [String.mk cur.reverse] := by
  induction suffix with
  | nil => intro cur; rfl
  | cons c cs ih =>
    intro cur
    have hc : isJsWs c = true := h c (List.mem_cons_self c cs)
    have h' : ∀ x ∈ cs, isJsWs x = true := fun x hx => h x (List.mem_cons_of_mem c hx)
    have ihnil := ih h' []
    simp only [splitWsGo, hc, if_true]
    by_cases hcur : cur = [] <;> simp [hcur, ihnil]

theorem splitWsGo_append_ws (suffix : List Char) (hsuf : ∀ c ∈ suffix, isJsWs c = true) :
    ∀ (cs cur : List Char), splitWsGo cur (cs ++ suffix) = splitWsGo cur cs := by
  intro cs
  induction cs with
  | nil =>
    intro cur
    rw [List.nil_append, splitWsGo_all_ws suffix hsuf cur]
    rfl
  | cons c cs ih =>
    intro cur
    simp only [List.cons_append, splitWsGo]
    by_cases hc : isJsWs c
    · by_cases hcur : cur = [] <;> simp [hc, hcur, ih]
    · simp [hc, ih]

theorem splitWsGo_dropWhile (cs : List Char) :
    splitWsGo [] (cs.dropWhile isJsWs) = splitWsGo [] cs := by
  induction cs with
  | nil => rfl
  | cons c cs ih =>
    rw [List.dropWhile_cons]
    by_cases hc : isJsWs c
    · simp only [hc, if_true]
      rw [ih]
      simp [splitWsGo, hc]
    · simp [hc]

theorem splitWsGo_trimList (cs : List Char) :
    splitWsGo [] (trimList cs) = splitWsGo [] cs := by
  have hdecomp : cs.dropWhile isJsWs =
      ((cs.dropWhile isJsWs).reverse.dropWhile isJsWs).reverse ++
        ((cs.dropWhile isJsWs).reverse.takeWhile isJsWs).reverse := by
    conv_lhs => rw [← List.reverse_reverse (cs.dropWhile isJsWs)]
    conv_lhs =>
      rw [← List.takeWhile_append_dropWhile (p := isJsWs)
        (l := (cs.dropWhile isJsWs).reverse)]
    rw [List.reverse_append]
  have hall : ∀ c ∈ ((cs.dropWhile isJsWs).reverse.takeWhile isJsWs).reverse,
      isJsWs c = true := by
    intro c hc
    rw [List.mem_reverse] at hc
    exact List.mem_takeWhile_imp hc
  have h1 : splitWsGo [] (cs.dropWhile isJsWs) = splitWsGo [] (trimList cs) := by
    conv_lhs => rw [hdecomp]
    exact splitWsGo_append_ws _ hall _ _
  rw [← h1, splitWsGo_dropWhile]

theorem chatSourcesGo_length (origin : String) (mint : Nat → String)
    (writeOk : Nat → Bool) (hits : List Hit) :
    ∀ (k : Nat) (pills : List SourcePill) (store : Store),
      ((chatSourcesGo origin mint writeOk hits k pills store).1).length =
        pills.length + hits.length := by
  induction hits with
  | nil => intro k pills store; simp [chatSourcesGo]
  | cons s rest ih =>
    intro k pills store
    by_cases hcls :
        (!truthyB s.thread_id && (truthyB s.doc_path || truthyB s.paragraph)) = true
    · simp only [chatSourcesGo, hcls, if_true]
      rw [ih]
      simp
      omega
    · simp only [chatSourcesGo, hcls]
      rw [if_neg Bool.false_ne_true, ih]
      simp
      omega

/-! ## Claim theorems -/

/-- Claim C4: the Results summary line reads exactly the no-results text
when the results field is an empty array, absent, or not an array; reads
the singular form for exactly one hit; and the plural form for every
count of at least two; the summary of the rendered view is exactly this
text. -/
theorem results_summary_pluralization :
    resultsSummaryText (jsHits JsArr.absent) = "No matching results found." ∧
    resultsSummaryText (jsHits JsArr.notArray) = "No matching results found." ∧
    (∀ rv : JsArr Hit, jsHits rv = [] →
      resultsSummaryText (jsHits rv) = "No matching results found.") ∧
    (∀ h : Hit, resultsSummaryText [h] = "1 matching result") ∧
    (∀ hits : List Hit, 2 ≤ hits.length →
      resultsSummaryText hits = toString hits.length ++ " matching results") ∧
    (∀ env store rv, (showResultsRender env store rv).summary =
      resultsSummaryText (jsHits rv)) := by
  refine ⟨rfl, rfl, ?_, ?_, ?_, fun _ _ _ => rfl⟩
  · intro rv h
    rw [h]
    rfl
  · intro x
    simp only [resultsSummaryText, List.length_singleton]
    rfl
  · intro hits h
    have h0 : ¬ hits.length = 0 := by omega
    have h1 : hits.length > 1 := by omega
    simp only [resultsSummaryText, if_neg h0, if_pos h1]
    rw [String.append_assoc,
      show (" matching result" ++ "s" : String) = " matching results" from by decide]

/-- Claim C4 witness: a concrete two-element response takes the plural
branch. -/
theorem results_summary_pluralization_witness :
    2 ≤ ([{}, {}] : List Hit).length ∧
    resultsSummaryText ([{}, {}] : List Hit) = "2 matching results" := by
  constructor
  · decide
  · have h := results_summary_pluralization.2.2.2.2.1 ([{}, {}] : List Hit) (by decide)
    exact h.trans (by decide)

/-- Claim C7: fetchJSON on a non-success response fails with the body
text when it is nonempty, and with the generic status message when the
body is empty or unreadable (the read failure being swallowed); on a
success status it returns the parsed JSON value. -/
theorem fetchJSON_error_channel {α : Type} (res : JsResponse α) :
    (res.ok = false → ∀ t, res.textBody = some t → t ≠ "" →
      fetchJSON res = Except.error t) ∧
    (res.ok = false → (res.textBody = none ∨ res.textBody = some "") →
      fetchJSON res = Except.error ("Request failed: " ++ toString res.status)) ∧
    (res.ok = true → fetchJSON res = Except.ok res.jsonBody) := by
  refine ⟨?_, ?_, ?_⟩
  · intro hok t ht hne
    simp [fetchJSON, hok, ht, hne]
  · intro hok hbody
    rcases hbody with h | h <;> simp [fetchJSON, hok, h]
  · intro hok
    simp [fetchJSON, hok]

/-- Claim C7 witness: a 404 with an empty body yields the generic
message, evaluated concretely. -/
theorem fetchJSON_error_channel_witness :
    (⟨false, 404, some "", (0 : Nat)⟩ : JsResponse Nat).ok = false ∧
    fetchJSON (⟨false, 404, some "", (0 : Nat)⟩ : JsResponse Nat) =
      Except.error "Request failed: 404" := by
  constructor
  · rfl
  · have h := (fetchJSON_error_channel
      (⟨false, 404, some "", (0 : Nat)⟩ : JsResponse Nat)).2.1 rfl (Or.inr rfl)
    exact h.trans (congrArg Except.error (by decide))

/-- Claim C8: a blank (empty or whitespace-only) submission is a no-op at
every form: the chat handler appends no user message, creates no
assistant placeholder, clears nothing and sends no request, and the home
and results forms trigger neither a URL change nor a lookup. -/
theorem empty_submit_noop (v : String) (rwo : Option (Option String))
    (rag : Except String RagResponse) (h : jsTrim v = "") :
    chatSubmit v rwo rag =
      { userBubble := none, inputCleared := false, rewriteRequest := none,
        metaLine := none, ragRequest := none, final := none } ∧
    homeFormSubmit v = none ∧ resultsFormSubmit v = none := by
  refine ⟨?_, ?_, ?_⟩ <;> simp [chatSubmit, homeFormSubmit, resultsFormSubmit, h]

/-- Claim C8 witness: a three-space submission at a concrete input. -/
theorem empty_submit_noop_witness :
    jsTrim "   " = "" ∧ homeFormSubmit "   " = none :=
  ⟨by decide, (empty_submit_noop "   " none (Except.error "x") (by decide)).2.1⟩

/-- Claim C9: the fallback to the original input as the resolved query
also happens when the rewrite call succeeds with an answer that is
absent, empty or whitespace-only, or that reduces to the empty string
after trimming and wrapper-quote stripping. -/
theorem rewrite_empty_answer_fallback (inputValue : String) (a : Option String)
    (rag : Except String RagResponse) (hval : jsTrim inputValue ≠ "")
    (h : a = none ∨ (∃ s, a = some s ∧ jsTrim s = "") ∨
      stripWrapperQuotes (jsTrim (a.getD "")) = "") :
    (chatSubmit inputValue (some a) rag).ragRequest =
      some { user_input := jsTrim inputValue, query := jsTrim inputValue,
             context_mode := CONTEXT_MODE } := by
  have hstr : stripWrapperQuotes (jsTrim (a.getD "")) = "" := by
    rcases h with h | ⟨s, hs, hts⟩ | h
    · subst h; rfl
    · subst hs
      simp only [Option.getD_some]
      rw [hts]
      rfl
    · exact h
  simp [chatSubmit, hval, hstr]

/-- Claim C9 witness: a rewrite answer holding only quotes inside
whitespace falls back to the input. -/
theorem rewrite_empty_answer_fallback_witness :
    jsTrim "hi" ≠ "" ∧
    stripWrapperQuotes (jsTrim ((some "  \"\"  " : Option String).getD "")) = "" ∧
    (chatSubmit "hi" (some (some "  \"\"  ")) (Except.error "x")).ragRequest =
      some { user_input := "hi", query := "hi", context_mode := CONTEXT_MODE } := by
  refine ⟨by decide, by decide, ?_⟩
  have h := rewrite_empty_answer_fallback "hi" (some "  \"\"  ") (Except.error "x")
    (by decide) (Or.inr (Or.inr (by decide)))
  exact h.trans (by decide)

/-- Claim C10: when the staging-record write throws, the empty catch
swallows it and both renderers still emit the document link carrying the
minted id while the store is left untouched, so the link can point at a
record that was never stored. -/
theorem staging_write_failure_swallowed (r : Hit) (dp docId : String) (store : Store) :
    (resultsDocBranch r dp docId store false).1 =
      (resultsDocBranch r dp docId store true).1 ∧
    (resultsDocBranch r dp docId store false).1.href =
      "/doc?id=" ++ encodeURIComponent docId ∧
    (resultsDocBranch r dp docId store false).2 = store ∧
    (chatDocBranch r docId store false).1 = (chatDocBranch r docId store true).1 ∧
    (chatDocBranch r docId store false).1.href = "/doc?id=" ++ docId ∧
    (chatDocBranch r docId store false).2 = store :=
  ⟨rfl, rfl, rfl, rfl, rfl, rfl⟩

/-- Claim C6: for every text and every positive word limit (the renderer
only uses 60 and 80), cutToWords keeps the first maxWords
whitespace-separated words joined by single spaces and appends the
ellipsis exactly when the text contains more than maxWords words; the
results renderer applies it with limit 60 to the thread topic line and
limit 80 to the document paragraph. -/
theorem cutToWords_spec (text : String) (maxWords : Nat) (h : 0 < maxWords) :
    cutToWords text maxWords =
      String.intercalate " " ((wordsOfText text).take maxWords) ++
        (if (wordsOfText text).length > maxWords then "…" else "") ∧
    (∀ origin pathname r tid,
      (threadCardOf origin pathname r tid).snippet =
        safe (cutToWords (topicLineOf r) 60)) ∧
    (∀ r dp docId store ok,
      ((resultsDocBranch r dp docId store ok).1).snippet =
        safe (cutToWords ((r.paragraph).getD "") 80)) := by
  refine ⟨?_, fun _ _ _ _ => rfl, fun _ _ _ _ _ => rfl⟩
  simp only [cutToWords, jsSplitWs, wordsOfText]
  by_cases hempty : (jsTrim text).data = []
  · have hempty' : trimList text.data = [] := hempty
    have hnil : splitWsGo [] text.data = [] := by
      rw [← splitWsGo_trimList, hempty']
      rfl
    obtain ⟨m, rfl⟩ : ∃ m, maxWords = m + 1 := ⟨maxWords - 1, by omega⟩
    have h1 : ¬ (([""] : List String).length > m + 1) := by
      simp only [List.length_singleton]
      omega
    simp [hempty, hnil, h1, String.intercalate]
    rfl
  · have hsplit : splitWsGo [] (jsTrim text).data = splitWsGo [] text.data :=
      splitWsGo_trimList text.data
    simp [hempty, hsplit]

/-- Claim C6 witness: a three-word text cut to two words gains the
ellipsis, evaluated concretely. -/
theorem cutToWords_spec_witness :
    0 < 2 ∧ cutToWords "a b c" 2 = "a b…" := by
  refine ⟨by decide, ?_⟩
  have h := (cutToWords_spec "a b c" 2 (by decide)).1
  exact h.trans (by decide)

/-- Claim C2 fails on the code: the thread view loop awaits each email
fetch before the next placeholder is appended, so the first email's
latency delays the second email's placeholder and content. With the
first fetch taking 5 time units the second placeholder appears at time 5;
with it instant, at time 0 — while the second email's own fetch oracle is
identical between the two runs. -/
theorem showThread_email_loop_not_independent :
    slowFirstFetch "e2" = instantFetch "e2" ∧
    eventTime (showThreadEmailLoop instantFetch ["e1", "e2"] 0)
      (EmailEvent.placeholderAppended "e2") = some 0 ∧
    eventTime (showThreadEmailLoop slowFirstFetch ["e1", "e2"] 0)
      (EmailEvent.placeholderAppended "e2") = some 5 ∧
    eventTime (showThreadEmailLoop slowFirstFetch ["e1", "e2"] 0)
      (EmailEvent.contentRendered "e2" true) = some 5 :=
  ⟨by decide, by decide, by decide, by decide⟩

/-- Claim C2 amended: the thread view processes emails strictly
sequentially — the j-th email's placeholder is appended only once the
fetches of all earlier emails have resolved, at the time given by the sum
of their latencies, and its content (or the failure text) renders after
its own fetch also resolves; hence a slow or failing earlier fetch delays
every later email's placeholder and content. -/
theorem showThread_email_loop_sequential (fetch : String → EmailFetch) :
    ∀ (ids : List String) (now j : Nat), ids.Nodup → ∀ hj : j < ids.length,
      eventTime (showThreadEmailLoop fetch ids now)
          (EmailEvent.placeholderAppended ids[j]) =
        some (now + (((ids.take j).map fun e => (fetch e).latency).sum)) ∧
      eventTime (showThreadEmailLoop fetch ids now)
          (EmailEvent.contentRendered ids[j] (fetch ids[j]).ok) =
        some (now + (((ids.take j).map fun e => (fetch e).latency).sum) +
          (fetch ids[j]).latency) := by
  intro ids
  induction ids with
  | nil =>
    intro now j _ hj
    simp at hj
  | cons a rest ih =>
    intro now j hnd hj
    rcases List.nodup_cons.mp hnd with ⟨ha, hrest⟩
    match j with
    | 0 =>
      constructor
      · simp only [showThreadEmailLoop, eventTime]
        rw [List.find?_cons_of_pos _ (by simp)]
        simp
      · simp only [showThreadEmailLoop, eventTime]
        rw [List.find?_cons_of_neg _ (by simp), List.find?_cons_of_pos _ (by simp)]
        simp
    | j + 1 =>
      have hj' : j < rest.length := by simpa using hj
      have hmem : rest[j] ∈ rest := List.getElem_mem hj'
      have hne : a ≠ rest[j] := by
        intro he
        exact ha (he ▸ hmem)
      have hIH := ih (now + (fetch a).latency) j hrest hj'
      have hgs : (a :: rest)[j + 1] = rest[j] := List.getElem_cons_succ a rest j hj
      rw [hgs]
      have hsum : (((a :: rest).take (j + 1)).map fun e => (fetch e).latency).sum =
          (fetch a).latency + ((rest.take j).map fun e => (fetch e).latency).sum := by
        simp [List.take_succ_cons]
      constructor
      · simp only [showThreadEmailLoop, eventTime]
        rw [List.find?_cons_of_neg _ (by simp [hne]), List.find?_cons_of_neg _ (by simp)]
        have h1 := hIH.1
        simp only [eventTime] at h1
        rw [h1, hsum]
        congr 1
        omega
      · simp only [showThreadEmailLoop, eventTime]
        rw [List.find?_cons_of_neg _ (by simp), List.find?_cons_of_neg _ (by simp [hne])]
        have h2 := hIH.2
        simp only [eventTime] at h2
        rw [h2, hsum]
        congr 1
        omega

/-- Claim C2 amended witness: with an instant fetch oracle and two
distinct ids the second placeholder appears at time 0. -/
theorem showThread_email_loop_sequential_witness :
    (["a", "b"] : List String).Nodup ∧ 1 < (["a", "b"] : List String).length ∧
    eventTime (showThreadEmailLoop instantFetch ["a", "b"] 0)
      (EmailEvent.placeholderAppended "b") = some 0 := by
  refine ⟨by decide, by decide, ?_⟩
  have h := (showThread_email_loop_sequential instantFetch ["a", "b"] 0 1
    (by decide) (by decide)).1
  exact h.trans (by decide)

/-- Claim C3 fails on the code: a source hit with neither thread_id nor
doc_path (nor paragraph) is not skipped — the thread branch renders a
pill whose link targets an undefined thread id. -/
theorem sources_malformed_hit_not_skipped :
    (chatSourcesGo "http://h" (fun _ => "m") (fun _ => true) [{}] 0 [] emptyStore).1 =
      [SourcePill.thread "http://h/search?mode=thread&id=undefined" "" "" ""] ∧
    ((chatSourcesGo "http://h" (fun _ => "m") (fun _ => true)
      [{}] 0 [] emptyStore).1).length ≠ 0 :=
  ⟨by decide, by decide⟩

/-- Claim C3 amended: the chat sources renderer classifies a hit as a
document exactly when thread_id is falsy and doc_path or paragraph is
truthy — not the Results renderer's thread_id versus doc_path union — and
every hit renders exactly one pill: a hit with neither thread_id nor
doc_path renders a document pill when it has a truthy paragraph and
otherwise a thread pill whose link carries the undefined id. -/
theorem sources_classification (origin : String) (mint : Nat → String)
    (writeOk : Nat → Bool) (hits : List Hit) (s : Hit) (k : Nat) (store : Store) :
    ((chatSourcesGo origin mint writeOk hits k [] store).1).length = hits.length ∧
    ((chatSourcesGo origin mint writeOk [s] k [] store).1.map SourcePill.isDoc) =
      [!truthyB s.thread_id && (truthyB s.doc_path || truthyB s.paragraph)] ∧
    (s.thread_id = none → s.doc_path = none → s.paragraph = none →
      (chatSourcesGo origin mint writeOk [s] k [] store).1 =
        [chatThreadPill origin s] ∧
      (chatThreadPill origin s).href = origin ++ "/search?mode=thread&id=undefined") := by
  refine ⟨?_, ?_, ?_⟩
  · rw [chatSourcesGo_length]
    simp
  · by_cases hcls :
        (!truthyB s.thread_id && (truthyB s.doc_path || truthyB s.paragraph)) = true
    · simp [chatSourcesGo, hcls, chatDocBranch, SourcePill.isDoc]
    · simp only [chatSourcesGo]
      rw [if_neg hcls]
      simp only [chatSourcesGo, List.nil_append]
      rw [Bool.not_eq_true] at hcls
      simp [hcls, chatThreadPill, SourcePill.isDoc]
  · intro h1 h2 h3
    have hcls :
        (!truthyB s.thread_id && (truthyB s.doc_path || truthyB s.paragraph)) = false := by
      simp [truthyB, truthyStr, h1, h2, h3]
    constructor
    · simp only [chatSourcesGo]
      rw [if_neg (by simp [hcls])]
      simp [chatSourcesGo]
    · rw [chatThreadPill, SourcePill.href, threadUrl, h1]
      rw [show encodeURIComponent (jsStringOfUndef none) = "undefined" from by decide]
      rw [String.append_assoc,
        show ("/search?mode=thread&id=" ++ "undefined" : String) =
          "/search?mode=thread&id=undefined" from by decide]

/-- Claim C3 amended witness: a hit with all fields absent renders a
single thread pill. -/
theorem sources_classification_witness :
    ({} : Hit).thread_id = none ∧
    (chatSourcesGo "http://h" (fun _ => "w") (fun _ => true) [{}] 0 [] emptyStore).1 =
      [chatThreadPill "http://h" {}] := by
  constructor
  · rfl
  · exact ((sources_classification "http://h" (fun _ => "w") (fun _ => true)
      [{}] {} 0 emptyStore).2.2 rfl rfl rfl).1

/-- Claim C5 fails on the code: when the rewrite call fails, the
synthesized fallback response is fed through the same trim and
wrapper-quote stripping as a real answer, so a wrapper-quoted input does
not reach phase 2 verbatim: submitting the four characters
quote-h-i-quote with a failing rewrite sends the two-character query, not
the raw input. -/
theorem rewrite_fallback_strips_quotes :
    (chatSubmit "\"hi\"" none (Except.error "boom")).ragRequest =
      some { user_input := "\"hi\"", query := "hi", context_mode := "summary" } ∧
    ("hi" : String) ≠ "\"hi\"" :=
  ⟨by decide, by decide⟩

/-- Claim C5 amended: if the phase-1 rewrite call fails, the orchestrator
still issues the phase-2 call and surfaces no error for the failure, but
the fallback query is the submitted (trimmed) text passed through the
same trim and wrapper-quote stripping as a rewritten answer, reverting to
the trimmed text itself only when stripping leaves the empty string; the
phase-2 request always carries the submitted text as user_input and the
resolved text as query, with the fixed context mode. -/
theorem rewrite_failure_fallback (inputValue : String)
    (rag : Except String RagResponse) (hval : jsTrim inputValue ≠ "") :
    (chatSubmit inputValue none rag).ragRequest =
      some { user_input := jsTrim inputValue
             query :=
               if stripWrapperQuotes (jsTrim (jsTrim inputValue)) = ""
               then jsTrim inputValue
               else stripWrapperQuotes (jsTrim (jsTrim inputValue))
             context_mode := CONTEXT_MODE } ∧
    (∀ resp, rag = Except.ok resp →
      (chatSubmit inputValue none rag).final =
        some (ChatFinal.answered (jsTrim ((resp.answer).getD ""))
          ((resp.sources).getD []))) ∧
    (∀ rwo : Option (Option String),
      (chatSubmit inputValue rwo rag).ragRequest.map RagRequest.user_input =
        some (jsTrim inputValue)) := by
  refine ⟨?_, ?_, ?_⟩
  · simp [chatSubmit, hval]
  · intro resp hr
    subst hr
    simp [chatSubmit, hval]
  · intro rwo
    simp [chatSubmit, hval]

/-- Claim C5 amended witness: an unquoted input survives the fallback
unchanged, evaluated concretely. -/
theorem rewrite_failure_fallback_witness :
    jsTrim "hello" ≠ "" ∧
    (chatSubmit "hello" none (Except.error "x")).ragRequest =
      some { user_input := "hello", query := "hello", context_mode := "summary" } := by
  refine ⟨by decide, ?_⟩
  have h := (rewrite_failure_fallback "hello" (Except.error "x") (by decide)).1
  exact h.trans (by decide)

/-- Claim C1 exposes a bug in the code: for the spec's example thread hit
the source assembles the card with exactly the claimed link target and
the rounded score pill, but the only listEl.appendChild(li) call sits
inside the doc_path branch, so a thread hit appends no card at all — the
rendered list stays empty even though the summary counts the hit. -/
theorem showResults_threadCard_never_appended :
    (showResultsRender sampleEnv emptyStore (JsArr.arr [budgetThreadHit])).cards = [] ∧
    (showResultsRender sampleEnv emptyStore (JsArr.arr [budgetThreadHit])).summary =
      "1 matching result" ∧
    (threadCardOf "http://localhost" "/search" budgetThreadHit "T1").href =
      "http://localhost/search?mode=thread&id=T1" ∧
    (threadCardOf "http://localhost" "/search" budgetThreadHit "T1").scorePill =
      some "score: 88%" := by
  refine ⟨by decide, by decide, by decide, ?_⟩
  have h88 : jsMathRound (876 / 10 : ℚ) = 88 := by
    rw [jsMathRound, Int.floor_eq_iff]
    norm_num
  show (budgetThreadHit.score).map scorePillText = some "score: 88%"
  rw [show budgetThreadHit.score = some (876 / 10 : ℚ) from rfl, Option.map_some']
  rw [show scorePillText (876 / 10 : ℚ) =
    "score: " ++ toString (jsMathRound (876 / 10 : ℚ)) ++ "%" from rfl]
  rw [h88]
  decide

end VetusAI
